import Mathlib

/-!
Verification of the tool-registry plugin loader (`src/lib.rs`).

The registry keeps two mappings: tool name → tool, and library path →
(last-modified timestamp, open library handle).  We shallowly embed the
Rust code: `HashMap` becomes an association list with keyed semantics
(`alookup` / `ainsert` / `aerase`), `SystemTime` becomes `Nat`, the
opaque `libloading::Library` handle becomes a `Nat` identifier, and the
filesystem plus dynamic loader become an explicit environment `Env`
(per-path modification time, open result, constructor-symbol result).
`load_library` takes and returns the registry state paired with an
optional error, mirroring the effect of an `&mut self` method whose
mutations persist when it returns `Err`.
-/

/-- A structured-data value, embedding the `serde_json::Value` built by
`tools_specs` via the `json!` macro. -/
inductive Json where
  | null : Json
  | bool : Bool → Json
  | num : Int → Json
  | str : String → Json
  | arr : List Json → Json
  | obj : List (String × Json) → Json

/-- A tool instance as the registry sees it: the accessor surface of the
`Tool` trait object (`name()`, `description()`, `parameters()`). -/
structure Tool where
  name : String
  description : String
  parameters : Json

/-- Keyed lookup in an association list: the value at the first matching
key, embedding `HashMap::get`. -/
def alookup {β : Type} (k : String) : List (String × β) → Option β
  | [] => none
  | (a, b) :: t => if a = k then some b else alookup k t

/-- Keyed insert: replace the value at an existing key, otherwise append,
embedding `HashMap::insert`'s keyed-replacement semantics. -/
def ainsert {β : Type} (k : String) (v : β) : List (String × β) → List (String × β)
  | [] => [(k, v)]
  | (a, b) :: t => if a = k then (k, v) :: t else (a, b) :: ainsert k v t

/-- Keyed removal of every entry with the given key, embedding
`HashMap::remove` (the maps built by the registry have distinct keys). -/
def aerase {β : Type} (k : String) : List (String × β) → List (String × β)
  | [] => []
  | (a, b) :: t => if a = k then aerase k t else (a, b) :: aerase k t

/-- The registry state: `tools: HashMap<String, Box<dyn Tool>>` and
`loaded_libraries: HashMap<PathBuf, (SystemTime, Library)>`.  A library
record is `(last_modified, handle)`. -/
structure ToolRegistry where
  tools : List (String × Tool)
  loaded_libraries : List (String × (Nat × Nat))

/-- `ToolRegistry::new()`: both maps empty. -/
def ToolRegistry.new : ToolRegistry :=
  { tools := [], loaded_libraries := [] }

/-- The record built for one tool by `tools_specs`, from the source's
`json!({"type": "function", "function": {"name": .., "description": ..,
"parameters": ..}})`. -/
def tool_spec (t : Tool) : Json :=
  Json.obj [(("type"), Json.str ("function")),
            (("function"), Json.obj [(("name"), Json.str t.name),
                                     (("description"), Json.str t.description),
                                     (("parameters"), t.parameters)])]

/-- `tools_specs(&self)`: one spec record per entry of the tool map. -/
def tools_specs (r : ToolRegistry) : List Json :=
  r.tools.map (fun p => tool_spec p.2)

/-- `get_tool(&self, name)`: `self.tools.get(name)`. -/
def get_tool (r : ToolRegistry) (name : String) : Option Tool :=
  alookup name r.tools

/-- The compile-time platform choice made by `cfg_if!` in
`is_shared_library`. -/
inductive TargetOs where
  | windows : TargetOs
  | macos : TargetOs
  | otherOs : TargetOs
deriving DecidableEq

/-- The file-name component of a path: the characters after the last
path separator, embedding `Path::file_name`. -/
def fileName (p : String) : String :=
  ⟨(p.data.reverse.takeWhile (fun c => c ≠ '/')).reverse⟩

/-- `Path::extension()` on the file name: `none` when the file name has
no dot, or when its only/last dot is the leading character (dot-files
such as ".so" have no extension); otherwise the portion after the final
dot. -/
def rustExtension (p : String) : Option String :=
  let rev := (fileName p).data.reverse
  match rev.dropWhile (fun c => c ≠ '.') with
  | [] => none
  | [_] => none
  | _ => some ⟨(rev.takeWhile (fun c => c ≠ '.')).reverse⟩

/-- ASCII lower-casing of one character, as used by
`str::eq_ignore_ascii_case`. -/
def asciiLower (c : Char) : Char :=
  if 'A' ≤ c ∧ c ≤ 'Z' then Char.ofNat (c.toNat + 32) else c

/-- `str::eq_ignore_ascii_case`: equality after ASCII lower-casing. -/
def eqIgnoreAsciiCase (a b : String) : Bool :=
  a.data.map asciiLower == b.data.map asciiLower

/-- `is_shared_library(path)`: the extension (defaulted to "" when
absent, as `unwrap_or("")` does) compared case-insensitively against the
platform's shared-library extension. -/
def is_shared_library (os : TargetOs) (p : String) : Bool :=
  let ext := (rustExtension p).getD ("")
  match os with
  | TargetOs.windows => eqIgnoreAsciiCase ext ("dll")
  | TargetOs.macos => eqIgnoreAsciiCase ext ("dylib")
  | TargetOs.otherOs => eqIgnoreAsciiCase ext ("so")

/-- The external world as the registry observes it, keyed by path:
`mtime` is `fs::metadata(path)?.modified()?` (`none` = unreadable
metadata), `openLib` is `Library::new(path)` (`none` = loader failure,
`some h` = an open handle), `symbol` is the `create_tool` constructor
resolution and call (`none` = missing symbol, `some t` = the tool the
constructor builds). -/
structure Env where
  mtime : String → Option Nat
  openLib : String → Option Nat
  symbol : String → Option Tool

/-- The error cases `load_library` can surface. -/
inductive LoadError where
  | metadataErr : LoadError
  | openErr : LoadError
  | symbolErr : LoadError
deriving DecidableEq

/-- `unload_library(&mut self, path)`: if a record exists for the path,
remove it from `loaded_libraries`, then collect every tool name (the
source's filter closure is literally `|_| true`) and remove each
collected name from the tool map.  If no record exists, do nothing. -/
def unload_library (r : ToolRegistry) (path : String) : ToolRegistry :=
  match alookup path r.loaded_libraries with
  | some _ =>
    let libs := aerase path r.loaded_libraries
    let tools_to_remove : List String :=
      (r.tools.filter (fun _ => true)).map Prod.fst
    let tools := tools_to_remove.foldl (fun ts n => aerase n ts) r.tools
    { tools := tools, loaded_libraries := libs }
  | none => r

/-- The `unsafe` block of `load_library`: open the library, resolve the
`create_tool` symbol, take ownership of the constructed tool, insert it
by name and record the open handle with the fresh timestamp.  Errors
leave the registry argument untouched. -/
def fresh_load (env : Env) (r : ToolRegistry) (path : String) (modified : Nat) :
    ToolRegistry × Option LoadError :=
  match env.openLib path with
  | none => (r, some LoadError.openErr)
  | some lib =>
    match env.symbol path with
    | none => (r, some LoadError.symbolErr)
    | some tool =>
      ({ tools := ainsert tool.name tool r.tools,
         loaded_libraries := ainsert path (modified, lib) r.loaded_libraries },
       none)

/-- `load_library(&mut self, path)`: read the modification time; if a
record exists for the path and the fresh time is ≤ the stored one,
return success with no effect; if a record exists and the fresh time is
strictly newer, first `unload_library(path)`, then perform the fresh
load; with no record, perform the fresh load directly. -/
def load_library (env : Env) (r : ToolRegistry) (path : String) :
    ToolRegistry × Option LoadError :=
  match env.mtime path with
  | none => (r, some LoadError.metadataErr)
  | some modified =>
    match alookup path r.loaded_libraries with
    | some (prev_modified, _) =>
      if modified ≤ prev_modified then (r, none)
      else fresh_load env (unload_library r path) path modified
    | none => fresh_load env r path modified

/-- `load_from_dir(&mut self, dir)`: walk the directory's immediate
entries in order; for each entry passing `is_shared_library`, invoke
`load_library` and propagate its error with `?` (aborting the rest of
the scan); skip non-matching entries.  The third component records the
paths for which `load_library` was invoked. -/
def load_from_dir (env : Env) (os : TargetOs) (r : ToolRegistry) (entries : List String) :
    ToolRegistry × Option LoadError × List String :=
  match entries with
  | [] => (r, none, [])
  | path :: rest =>
    if is_shared_library os path then
      match load_library env r path with
      | (r1, none) =>
        let out := load_from_dir env os r1 rest
        (out.1, out.2.1, path :: out.2.2)
      | (r1, some e) => (r1, some e, [path])
    else
      load_from_dir env os r rest

/-! Concrete inputs used by witnesses and counterexamples. -/

/-- The `alpha` tool as first loaded from `toolA.so`. -/
def toolAlpha : Tool :=
  { name := "alpha", description := "first alpha", parameters := Json.null }

/-- The `alpha` tool rebuilt by the reloaded `toolA.so`. -/
def toolAlphaV2 : Tool :=
  { name := "alpha", description := "second alpha", parameters := Json.null }

/-- The `beta` tool loaded from `toolB.so`. -/
def toolBeta : Tool :=
  { name := "beta", description := "beta tool", parameters := Json.null }

/-- A registry holding `alpha` (from `toolA.so`, mtime 1, handle 10) and
`beta` (from `toolB.so`, mtime 1, handle 11). -/
def regAB : ToolRegistry :=
  { tools := [("alpha", toolAlpha), ("beta", toolBeta)],
    loaded_libraries := [("toolA.so", (1, 10)), ("toolB.so", (1, 11))] }

/-- A world where `toolA.so` was touched to mtime 2 (and reloads to the
second alpha through handle 12) while `toolB.so` still has mtime 1. -/
def envReload : Env :=
  { mtime := fun p =>
      if p = "toolA.so" then some 2 else if p = "toolB.so" then some 1 else none,
    openLib := fun p => if p = "toolA.so" then some 12 else none,
    symbol := fun p => if p = "toolA.so" then some toolAlphaV2 else none }

/-- A registry holding one tool `gamma` from `lib.so` (mtime 5, handle 20). -/
def regC2 : ToolRegistry :=
  { tools := [("gamma", toolBeta)],
    loaded_libraries := [("lib.so", (5, 20))] }

/-- A world where `lib.so` has been modified (mtime 9) but the dynamic
loader now fails to open it. -/
def envC2 : Env :=
  { mtime := fun p => if p = "lib.so" then some 9 else none,
    openLib := fun _ => none,
    symbol := fun _ => none }

/-- A world where `toolA.so` reports mtime 0, older than any stored
watermark. -/
def envStale : Env :=
  { mtime := fun p => if p = "toolA.so" then some 0 else none,
    openLib := fun _ => some 30,
    symbol := fun _ => some toolAlphaV2 }

/-- A world where `a.so` exists (mtime 1) but fails to open, while
`b.so` would load fine. -/
def envC8 : Env :=
  { mtime := fun p =>
      if p = "a.so" then some 1 else if p = "b.so" then some 1 else none,
    openLib := fun p => if p = "b.so" then some 40 else none,
    symbol := fun p => if p = "b.so" then some toolBeta else none }

/-! Association-list lemmas. -/

theorem alookup_ainsert_self {β : Type} (k : String) (v : β) (l : List (String × β)) :
    alookup k (ainsert k v l) = some v := by
  induction l with
  | nil => simp [ainsert, alookup]
  | cons q t ih =>
    obtain ⟨a, b⟩ := q
    by_cases h : a = k
    · simp [ainsert, alookup, h]
    · simp [ainsert, alookup, h, ih]

theorem alookup_ainsert_ne {β : Type} (q k : String) (v : β) (l : List (String × β))
    (h : q ≠ k) : alookup q (ainsert k v l) = alookup q l := by
  have hk : k ≠ q := Ne.symm h
  induction l with
  | nil => simp [ainsert, alookup, hk]
  | cons e t ih =>
    obtain ⟨a, b⟩ := e
    by_cases ha : a = k
    · subst ha
      simp [ainsert, alookup, hk]
    · simp [ainsert, alookup, ha, ih]

theorem alookup_aerase_self {β : Type} (k : String) (l : List (String × β)) :
    alookup k (aerase k l) = none := by
  induction l with
  | nil => simp [aerase, alookup]
  | cons e t ih =>
    obtain ⟨a, b⟩ := e
    by_cases h : a = k
    · simp [aerase, h, ih]
    · simp [aerase, alookup, h, ih]

theorem alookup_aerase_ne {β : Type} (q k : String) (l : List (String × β))
    (h : q ≠ k) : alookup q (aerase k l) = alookup q l := by
  have hk : k ≠ q := Ne.symm h
  induction l with
  | nil => simp [aerase]
  | cons e t ih =>
    obtain ⟨a, b⟩ := e
    by_cases ha : a = k
    · subst ha
      simp [aerase, alookup, hk, ih]
    · simp [aerase, alookup, ha, ih]

theorem mem_aerase {β : Type} {p : String × β} {k : String} :
    ∀ {l : List (String × β)}, p ∈ aerase k l → p ∈ l ∧ p.1 ≠ k := by
  intro l
  induction l with
  | nil => intro h; simp [aerase] at h
  | cons q t ih =>
    obtain ⟨a, b⟩ := q
    intro h
    by_cases hak : a = k
    · rw [aerase, if_pos hak] at h
      have hr := ih h
      exact ⟨List.mem_cons_of_mem _ hr.1, hr.2⟩
    · rw [aerase, if_neg hak] at h
      rcases List.mem_cons.mp h with h1 | h2
      · subst h1
        exact ⟨List.mem_cons_self _ _, hak⟩
      · have hr := ih h2
        exact ⟨List.mem_cons_of_mem _ hr.1, hr.2⟩

theorem foldl_aerase_eq_nil {β : Type} (ns : List String) :
    ∀ ts : List (String × β), (∀ p ∈ ts, p.1 ∈ ns) →
      ns.foldl (fun acc n => aerase n acc) ts = [] := by
  induction ns with
  | nil =>
    intro ts h
    cases ts with
    | nil => rfl
    | cons p t => exact absurd (h p (List.mem_cons_self _ _)) (by simp)
  | cons n ns ih =>
    intro ts h
    simp only [List.foldl_cons]
    apply ih
    intro p hp
    obtain ⟨hmem, hne⟩ := mem_aerase hp
    rcases List.mem_cons.mp (h p hmem) with h1 | h2
    · exact absurd h1 hne
    · exact h2

theorem alookup_eq_none_iff {β : Type} (k : String) (l : List (String × β)) :
    alookup k l = none ↔ ∀ b, (k, b) ∉ l := by
  induction l with
  | nil => simp [alookup]
  | cons e t ih =>
    obtain ⟨a, c⟩ := e
    by_cases h : a = k
    · subst h
      simp only [alookup, if_pos rfl]
      constructor
      · intro hx; exact absurd hx (by simp)
      · intro hx
        exact absurd (List.mem_cons_self (a, c) t) (hx c)
    · simp only [alookup, if_neg h, ih]
      constructor
      · intro hx b hb
        rcases List.mem_cons.mp hb with h1 | h2
        · exact h (congrArg Prod.fst h1).symm
        · exact hx b h2
      · intro hx b hb
        exact hx b (List.mem_cons_of_mem _ hb)

/-! Lemmas about `unload_library`. -/

theorem unload_library_eq_of_mem (r : ToolRegistry) (path : String) (v : Nat × Nat)
    (h : alookup path r.loaded_libraries = some v) :
    unload_library r path =
      { tools := [], loaded_libraries := aerase path r.loaded_libraries } := by
  unfold unload_library
  rw [h]
  have htools :
      ((r.tools.filter (fun _ => true)).map Prod.fst).foldl
        (fun ts n => aerase n ts) r.tools = [] := by
    apply foldl_aerase_eq_nil
    intro p hp
    simp only [List.filter_true]
    exact List.mem_map_of_mem Prod.fst hp
  simp only [htools]

theorem unload_library_eq_of_none (r : ToolRegistry) (path : String)
    (h : alookup path r.loaded_libraries = none) :
    unload_library r path = r := by
  unfold unload_library
  rw [h]

/-! Branch equations for `load_library` and `fresh_load`. -/

theorem load_library_mtime_none (env : Env) (r : ToolRegistry) (path : String)
    (h : env.mtime path = none) :
    load_library env r path = (r, some LoadError.metadataErr) := by
  unfold load_library
  rw [h]

theorem load_library_no_record (env : Env) (r : ToolRegistry) (path : String) (m : Nat)
    (hm : env.mtime path = some m) (hrec : alookup path r.loaded_libraries = none) :
    load_library env r path = fresh_load env r path m := by
  unfold load_library
  rw [hm, hrec]

theorem load_library_uptodate_eq (env : Env) (r : ToolRegistry) (path : String)
    (m prev lb : Nat) (hm : env.mtime path = some m)
    (hrec : alookup path r.loaded_libraries = some (prev, lb)) (hle : m ≤ prev) :
    load_library env r path = (r, none) := by
  simp only [load_library, hm, hrec]
  rw [if_pos hle]

theorem load_library_reload_eq (env : Env) (r : ToolRegistry) (path : String)
    (m prev lb : Nat) (hm : env.mtime path = some m)
    (hrec : alookup path r.loaded_libraries = some (prev, lb)) (hgt : ¬ m ≤ prev) :
    load_library env r path = fresh_load env (unload_library r path) path m := by
  simp only [load_library, hm, hrec]
  rw [if_neg hgt]

theorem fresh_load_open_none (env : Env) (r : ToolRegistry) (path : String) (m : Nat)
    (h : env.openLib path = none) :
    fresh_load env r path m = (r, some LoadError.openErr) := by
  unfold fresh_load
  rw [h]

theorem fresh_load_symbol_none (env : Env) (r : ToolRegistry) (path : String) (m lib : Nat)
    (ho : env.openLib path = some lib) (hs : env.symbol path = none) :
    fresh_load env r path m = (r, some LoadError.symbolErr) := by
  unfold fresh_load
  rw [ho, hs]

theorem fresh_load_ok (env : Env) (r : ToolRegistry) (path : String) (m lib : Nat)
    (t : Tool) (ho : env.openLib path = some lib) (hs : env.symbol path = some t) :
    fresh_load env r path m =
      ({ tools := ainsert t.name t r.tools,
         loaded_libraries := ainsert path (m, lib) r.loaded_libraries }, none) := by
  unfold fresh_load
  rw [ho, hs]

/-! Branch equations for `load_from_dir`. -/

theorem load_from_dir_nil (env : Env) (os : TargetOs) (r : ToolRegistry) :
    load_from_dir env os r [] = (r, none, []) := rfl

theorem load_from_dir_cons_ok (env : Env) (os : TargetOs) (r r1 : ToolRegistry)
    (e : String) (rest : List String)
    (hsl : is_shared_library os e = true) (hl : load_library env r e = (r1, none)) :
    load_from_dir env os r (e :: rest) =
      ((load_from_dir env os r1 rest).1, (load_from_dir env os r1 rest).2.1,
        e :: (load_from_dir env os r1 rest).2.2) := by
  simp only [load_from_dir, hsl, hl, if_true]

theorem load_from_dir_cons_err (env : Env) (os : TargetOs) (r r1 : ToolRegistry)
    (e : String) (rest : List String) (err : LoadError)
    (hsl : is_shared_library os e = true) (hl : load_library env r e = (r1, some err)) :
    load_from_dir env os r (e :: rest) = (r1, some err, [e]) := by
  simp only [load_from_dir, hsl, hl, if_true]

theorem load_from_dir_cons_skip (env : Env) (os : TargetOs) (r : ToolRegistry)
    (e : String) (rest : List String) (hsl : is_shared_library os e = false) :
    load_from_dir env os r (e :: rest) = load_from_dir env os r rest := by
  simp only [load_from_dir, hsl, Bool.false_eq_true, if_false]

/-! Claim theorems. -/

/-- C1: in the source code, reloading `toolA.so` (whose mtime rose from
1 to 2) evicts the unrelated `beta` tool: before the rescan `beta`
resolves and `tools_specs` has 2 records, after the rescan the scan
succeeded, `alpha` resolves to the new instance, but `get_tool("beta")`
is `none` and `tools_specs` has only 1 record — the code contradicts the
claim (and its own comment, which says it removes the tools "from this
library"). -/
theorem reload_evicts_unrelated_tools :
    get_tool regAB ("beta") = some toolBeta ∧
    (tools_specs regAB).length = 2 ∧
    (load_from_dir envReload TargetOs.otherOs regAB ["toolA.so", "toolB.so"]).2.1 =
      none ∧
    get_tool (load_from_dir envReload TargetOs.otherOs regAB
      ["toolA.so", "toolB.so"]).1 ("alpha") = some toolAlphaV2 ∧
    get_tool (load_from_dir envReload TargetOs.otherOs regAB
      ["toolA.so", "toolB.so"]).1 ("beta") = none ∧
    (tools_specs (load_from_dir envReload TargetOs.otherOs regAB
      ["toolA.so", "toolB.so"]).1).length = 1 :=
  ⟨rfl, rfl, rfl, rfl, rfl, rfl⟩

/-- C2 counterexample: with a record for `lib.so` (watermark 5) holding
one tool, a reload attempt (fresh mtime 9) whose dynamic-loader open
fails returns an error, yet the registry is not unchanged: both maps
were emptied by the unload step that preceded the failed open. -/
theorem load_error_mutates_state_cex :
    (load_library envC2 regC2 ("lib.so")).2 = some LoadError.openErr ∧
    (load_library envC2 regC2 ("lib.so")).1.tools.length = 0 ∧
    regC2.tools.length = 1 ∧
    (load_library envC2 regC2 ("lib.so")).1.loaded_libraries.length = 0 ∧
    regC2.loaded_libraries.length = 1 :=
  ⟨rfl, rfl, rfl, rfl, rfl⟩

/-- C2 (amended): whenever `load_library` returns an error, the
resulting registry is either exactly the prior state or exactly the
prior state after `unload_library` of that path (so no half-registered
tool and no dangling record is ever left); when no record existed for
the path beforehand, an erroring `load_library` leaves the registry
unchanged. -/
theorem load_error_state_bound (env : Env) (r : ToolRegistry) (path : String) :
    ((load_library env r path).2.isSome = true →
      (load_library env r path).1 = r ∨
      (load_library env r path).1 = unload_library r path) ∧
    (alookup path r.loaded_libraries = none →
      (load_library env r path).2.isSome = true →
      (load_library env r path).1 = r) := by
  constructor
  · intro herr
    cases hm : env.mtime path with
    | none => rw [load_library_mtime_none env r path hm]; exact Or.inl rfl
    | some m =>
      cases hrec : alookup path r.loaded_libraries with
      | none =>
        rw [load_library_no_record env r path m hm hrec] at herr ⊢
        cases ho : env.openLib path with
        | none => rw [fresh_load_open_none env r path m ho]; exact Or.inl rfl
        | some lib =>
          cases hs : env.symbol path with
          | none =>
            rw [fresh_load_symbol_none env r path m lib ho hs]; exact Or.inl rfl
          | some t =>
            rw [fresh_load_ok env r path m lib t ho hs] at herr
            simp at herr
      | some pv =>
        obtain ⟨prev, lb⟩ := pv
        by_cases hle : m ≤ prev
        · rw [load_library_uptodate_eq env r path m prev lb hm hrec hle] at herr
          simp at herr
        · rw [load_library_reload_eq env r path m prev lb hm hrec hle] at herr ⊢
          cases ho : env.openLib path with
          | none =>
            rw [fresh_load_open_none env (unload_library r path) path m ho]
            exact Or.inr rfl
          | some lib =>
            cases hs : env.symbol path with
            | none =>
              rw [fresh_load_symbol_none env (unload_library r path) path m lib ho hs]
              exact Or.inr rfl
            | some t =>
              rw [fresh_load_ok env (unload_library r path) path m lib t ho hs] at herr
              simp at herr
  · intro hrec herr
    cases hm : env.mtime path with
    | none => rw [load_library_mtime_none env r path hm]
    | some m =>
      rw [load_library_no_record env r path m hm hrec] at herr ⊢
      cases ho : env.openLib path with
      | none => rw [fresh_load_open_none env r path m ho]
      | some lib =>
        cases hs : env.symbol path with
        | none => rw [fresh_load_symbol_none env r path m lib ho hs]
        | some t =>
          rw [fresh_load_ok env r path m lib t ho hs] at herr
          simp at herr

theorem load_error_state_bound_witness :
    (load_library envC2 regC2 ("lib.so")).1 = regC2 ∨
    (load_library envC2 regC2 ("lib.so")).1 = unload_library regC2 ("lib.so") :=
  (load_error_state_bound envC2 regC2 ("lib.so")).1 rfl

/-- C3: `unload_library` with an existing record for the path empties
the whole tool map and removes exactly that path's record; with no
record it is the identity. -/
theorem unload_semantics (r : ToolRegistry) (path : String) :
    (∀ v : Nat × Nat, alookup path r.loaded_libraries = some v →
      unload_library r path =
        { tools := [], loaded_libraries := aerase path r.loaded_libraries }) ∧
    (alookup path r.loaded_libraries = none → unload_library r path = r) :=
  ⟨fun v hv => unload_library_eq_of_mem r path v hv,
   fun h => unload_library_eq_of_none r path h⟩

theorem unload_semantics_witness :
    unload_library regC2 ("lib.so") =
      { tools := [], loaded_libraries := aerase ("lib.so") regC2.loaded_libraries } :=
  (unload_semantics regC2 ("lib.so")).1 (5, 20) rfl

/-- C4: when a record exists for the path and the fresh modification
time is at most the stored watermark, `load_library` succeeds with no
effect at all on the registry. -/
theorem load_uptodate_noop (env : Env) (r : ToolRegistry) (path : String)
    (m prev lib : Nat) (hm : env.mtime path = some m)
    (hrec : alookup path r.loaded_libraries = some (prev, lib)) (hle : m ≤ prev) :
    load_library env r path = (r, none) :=
  load_library_uptodate_eq env r path m prev lib hm hrec hle

theorem load_uptodate_noop_witness :
    load_library envReload regAB ("toolB.so") = (regAB, none) :=
  load_uptodate_noop envReload regAB ("toolB.so") 1 1 11 rfl rfl (by decide)

/-- C5: a successful load of path `p` that reaches the registration step
and produces tool `t`, whose name collides with an already-registered
tool `told`, replaces the name entry with `t`, while any other path `q`
keeps exactly its prior library record (nothing else is unloaded). -/
theorem collision_replaces_without_unload (env : Env) (r : ToolRegistry)
    (p q : String) (m lib : Nat) (t told : Tool)
    (hm : env.mtime p = some m)
    (ho : env.openLib p = some lib)
    (hs : env.symbol p = some t)
    (_hcol : alookup t.name r.tools = some told)
    (hbranch : ∀ prev lb, alookup p r.loaded_libraries = some (prev, lb) → prev < m)
    (hq : q ≠ p) :
    (load_library env r p).2 = none ∧
    alookup t.name (load_library env r p).1.tools = some t ∧
    alookup q (load_library env r p).1.loaded_libraries =
      alookup q r.loaded_libraries := by
  cases hrec : alookup p r.loaded_libraries with
  | none =>
    rw [load_library_no_record env r p m hm hrec, fresh_load_ok env r p m lib t ho hs]
    exact ⟨rfl, alookup_ainsert_self t.name t r.tools,
      alookup_ainsert_ne q p (m, lib) r.loaded_libraries hq⟩
  | some pv =>
    obtain ⟨prev, lb⟩ := pv
    have hlt := hbranch prev lb hrec
    have hnle : ¬ m ≤ prev := by omega
    rw [load_library_reload_eq env r p m prev lb hm hrec hnle,
      unload_library_eq_of_mem r p (prev, lb) hrec,
      fresh_load_ok env _ p m lib t ho hs]
    refine ⟨rfl, alookup_ainsert_self t.name t _, ?_⟩
    have h1 := alookup_ainsert_ne q p (m, lib) (aerase p r.loaded_libraries) hq
    have h2 := alookup_aerase_ne q p r.loaded_libraries hq
    exact h1.trans h2

theorem collision_replaces_without_unload_witness :
    (load_library envReload regAB ("toolA.so")).2 = none ∧
    alookup (toolAlphaV2.name) (load_library envReload regAB ("toolA.so")).1.tools =
      some toolAlphaV2 ∧
    alookup ("toolB.so") (load_library envReload regAB ("toolA.so")).1.loaded_libraries =
      alookup ("toolB.so") regAB.loaded_libraries :=
  collision_replaces_without_unload envReload regAB ("toolA.so") ("toolB.so") 2 12
    toolAlphaV2 toolAlpha rfl rfl rfl rfl
    (by
      intro prev lb h
      have h2 := Option.some.inj h
      injection h2 with h3 h4
      omega)
    (by decide)

/-- C6: `tools_specs` (a pure function of the registry state) returns
one record per registered tool — its length equals the tool map's size —
and every record is the fixed shape: a "type": "function" discriminator
plus a "function" object holding exactly the source tool's name,
description and parameter schema. -/
theorem tools_specs_shape (r : ToolRegistry) :
    (tools_specs r).length = r.tools.length ∧
    ∀ j ∈ tools_specs r, ∃ nt, nt ∈ r.tools ∧
      j = Json.obj [(("type"), Json.str ("function")),
                    (("function"), Json.obj [(("name"), Json.str nt.2.name),
                                             (("description"), Json.str nt.2.description),
                                             (("parameters"), nt.2.parameters)])] := by
  constructor
  · simp [tools_specs]
  · intro j hj
    rcases List.mem_map.mp hj with ⟨p, hp, hje⟩
    exact ⟨p, hp, hje.symm⟩

theorem tools_specs_shape_witness :
    ∃ nt, nt ∈ regAB.tools ∧
      tool_spec toolAlpha =
        Json.obj [(("type"), Json.str ("function")),
                  (("function"), Json.obj [(("name"), Json.str nt.2.name),
                                           (("description"), Json.str nt.2.description),
                                           (("parameters"), nt.2.parameters)])] :=
  (tools_specs_shape regAB).2 (tool_spec toolAlpha)
    (by
      show tool_spec toolAlpha ∈ tool_spec toolAlpha :: [tool_spec toolBeta]
      exact List.mem_cons_self _ _)

/-- C7: after `unload_library` removes the record of a loaded path, that
path no longer resolves in the path map, and a subsequent `load_library`
of it reduces to the fresh-load branch whatever the fresh modification
time is (here even an older one is accepted in the witness). -/
theorem unload_then_load_fresh (env : Env) (r : ToolRegistry) (path : String)
    (m : Nat) (v : Nat × Nat)
    (hrec : alookup path r.loaded_libraries = some v)
    (hm : env.mtime path = some m) :
    alookup path (unload_library r path).loaded_libraries = none ∧
    load_library env (unload_library r path) path =
      fresh_load env (unload_library r path) path m := by
  have hu := unload_library_eq_of_mem r path v hrec
  have hnone : alookup path (unload_library r path).loaded_libraries = none := by
    rw [hu]
    exact alookup_aerase_self path r.loaded_libraries
  exact ⟨hnone, load_library_no_record env (unload_library r path) path m hm hnone⟩

theorem unload_then_load_fresh_witness :
    alookup ("toolA.so") (unload_library regAB ("toolA.so")).loaded_libraries = none ∧
    load_library envStale (unload_library regAB ("toolA.so")) ("toolA.so") =
      fresh_load envStale (unload_library regAB ("toolA.so")) ("toolA.so") 0 :=
  unload_then_load_fresh envStale regAB ("toolA.so") 0 (1, 10) rfl rfl

/-- C8 counterexample: with `a.so` present (mtime readable) but failing
to open, and `b.so` perfectly loadable, scanning ["a.so", "b.so"] aborts
at the first load error: `b.so` matches the platform extension yet the
load step is never invoked for it, refuting "invokes the load step
exactly for those entries whose extension matches". -/
theorem scan_abort_skips_matching_cex :
    is_shared_library TargetOs.otherOs ("b.so") = true ∧
    (load_from_dir envC8 TargetOs.otherOs ToolRegistry.new ["a.so", "b.so"]).2.2 =
      ["a.so"] ∧
    (load_from_dir envC8 TargetOs.otherOs ToolRegistry.new ["a.so", "b.so"]).2.1 =
      some LoadError.openErr :=
  ⟨rfl, rfl, rfl⟩

/-- C8 (amended): every entry for which the load step is invoked matches
the platform's shared-library extension (so non-matching entries are
never loaded and never produce an error), and when the scan finishes
without a load error the load step was invoked exactly for the
matching-extension entries, in order. -/
theorem scan_filter_bound (env : Env) (os : TargetOs) (r : ToolRegistry)
    (entries : List String) :
    (∀ p ∈ (load_from_dir env os r entries).2.2, is_shared_library os p = true) ∧
    ((load_from_dir env os r entries).2.1 = none →
      (load_from_dir env os r entries).2.2 =
        entries.filter (fun p => is_shared_library os p)) := by
  induction entries generalizing r with
  | nil =>
    rw [load_from_dir_nil]
    exact ⟨by intro p hp; simp at hp, fun _ => rfl⟩
  | cons e rest ih =>
    by_cases hsl : is_shared_library os e = true
    · cases hl : load_library env r e with
      | mk r1 res =>
        cases res with
        | none =>
          rw [load_from_dir_cons_ok env os r r1 e rest hsl hl]
          constructor
          · intro p hp
            rcases List.mem_cons.mp hp with h1 | h2
            · rw [h1]; exact hsl
            · exact (ih r1).1 p h2
          · intro herr
            rw [List.filter_cons_of_pos hsl]
            exact congrArg (fun l => e :: l) ((ih r1).2 herr)
        | some err =>
          rw [load_from_dir_cons_err env os r r1 e rest err hsl hl]
          refine ⟨?_, ?_⟩
          · intro p hp
            rcases List.mem_singleton.mp hp with h1
            rw [h1]; exact hsl
          · intro herr
            exact absurd herr (by simp)
    · have hsl2 : is_shared_library os e = false := by
        revert hsl
        cases is_shared_library os e <;> simp
      rw [load_from_dir_cons_skip env os r e rest hsl2]
      refine ⟨(ih r).1, ?_⟩
      intro herr
      rw [List.filter_cons_of_neg (by rw [hsl2]; exact Bool.false_ne_true)]
      exact (ih r).2 herr

theorem scan_filter_bound_witness :
    (load_from_dir envReload TargetOs.otherOs regAB
      ["toolA.so", "x.txt", "toolB.so"]).2.2 =
      List.filter (fun p => is_shared_library TargetOs.otherOs p)
        ["toolA.so", "x.txt", "toolB.so"] :=
  (scan_filter_bound envReload TargetOs.otherOs regAB
    ["toolA.so", "x.txt", "toolB.so"]).2 rfl

/-- C9: `get_tool` is a pure query returning an `Option`: it yields
`none` precisely when no tool is registered under the name (never an
error), and the registry state is not part of its output. -/
theorem get_tool_absent_none (r : ToolRegistry) (name : String) :
    get_tool r name = none ↔ ∀ t, (name, t) ∉ r.tools :=
  alookup_eq_none_iff name r.tools

theorem get_tool_absent_none_witness : get_tool regAB ("delta") = none :=
  (get_tool_absent_none regAB ("delta")).mpr
    (by
      intro t h
      simp [regAB] at h)

/-- C10: a path whose file name has no extension — in particular a
dot-file such as ".so", whose leading dot yields no extension — is never
classified as a shared library on any platform, so `load_from_dir`
never invokes the load step on it. -/
theorem no_extension_not_shared_library (os : TargetOs) (p : String)
    (h : rustExtension p = none) : is_shared_library os p = false := by
  cases os <;> simp [is_shared_library, h] <;> decide

theorem no_extension_not_shared_library_witness :
    is_shared_library TargetOs.otherOs (".so") = false :=
  no_extension_not_shared_library TargetOs.otherOs (".so") rfl
